import Mathlib

/-!
Shallow embedding of the gpvolve Monte Carlo trajectory samplers.

Embedded source:
* `src/gpvolve/evolve/mc.py` — `monte_carlo` and
  `monte_carlo_metropolis_criterion`, two stochastic walkers over a
  genotype-phenotype map, together with the `EvolverError` exception class.
* `src/evotpt/mcmc_path_sampling.py` — `MarkovChain.simulate`, the
  transition-matrix-driven Markov chain sampler.

Modelling conventions:
* Genotypes are an abstract type `G` with decidable equality (strings in the
  source).  Phenotypes/fitnesses and probabilities are rationals.
* The fixation model returns `Option ℚ`; `none` stands for an IEEE NaN
  output, so `numpy.nan_to_num` becomes `Option.getD · 0` and the Python
  comparison `u < NaN` (always false) becomes `metAccept u none = false`.
* Randomness is an explicit oracle: `rng : ℕ → ℚ` gives the uniform draw of
  step `n` for `monte_carlo` (`np.random.uniform(0, 100)`), while the
  Metropolis walker consumes an index oracle `uChoice : ℕ → ℕ` (modelling
  `np.random.choice`) and a uniform oracle `uRand : ℕ → ℚ`
  (`np.random.rand()`).  `rv_discrete(...).rvs()` of the matrix sampler is
  the oracle `rvs : List ℚ → ℕ → ℕ` mapping the row pmf and a draw counter
  to a sampled index.
* Loops that the source does not bound (`monte_carlo_metropolis_criterion`
  can accept forever; `MarkovChain.simulate` has no ceiling) take explicit
  fuel and return `none` when it runs out; `monte_carlo`'s loop is bounded
  by its own guard, and the top-level entry point passes sufficient fuel.
  A `none` result also covers the source's unreachable `IndexError` paths
  (an empty boolean mask in `moves[cumulative_dist >= mc_number][0]`, or an
  out-of-range index coming back from a random oracle).
* `max_moves` / `max_fails` are integers, as in Python.
-/

deriving instance DecidableEq for Except

/-- `np.nan_to_num` on a single model output: a NaN (here `none`) becomes 0. -/
def nanToNum (x : Option ℚ) : ℚ :=
  x.getD 0

section Walkers

variable {G : Type} [DecidableEq G]

/-- The `EvolverError` exception of `mc.py`.  The stuck-trajectory raise
interpolates `str(visited)` into its message, so that error carries the
partial trajectory; both budget-exhaustion raises use the fixed message
"Monte Carlo exceeded max number of moves." and carry nothing. -/
inductive EvolverError (G : Type) where
  | stuck (visited : List G) : EvolverError G
  | exceeded : EvolverError G
deriving DecidableEq

/-- `fixations` of `monte_carlo` (mc.py line 72): the nan-coerced model
outputs for each neighbor of the current genotype. -/
def fixations (phen : G → ℚ) (model : ℚ → ℚ → Option ℚ) (current : G)
    (neighbors : List G) : List ℚ :=
  neighbors.map fun n => nanToNum (model (phen current) (phen n))

/-- `trans_prob` of `monte_carlo` (mc.py line 74): each fixation probability
divided by `len(neighbors) + 1`. -/
def trans_prob (phen : G → ℚ) (model : ℚ → ℚ → Option ℚ) (current : G)
    (neighbors : List G) : List ℚ :=
  (fixations phen model current neighbors).map fun x => x / (neighbors.length + 1)

/-- `self_prob` of `monte_carlo` (mc.py line 76). -/
def self_prob (phen : G → ℚ) (model : ℚ → ℚ → Option ℚ) (current : G)
    (neighbors : List G) : ℚ :=
  1 - (trans_prob phen model current neighbors).sum

/-- `cumulative_dist` of `monte_carlo` (mc.py line 86): partial sums of the
probability list, scaled to the 0–100 range. -/
def cumulative_dist (probs : List ℚ) : List ℚ :=
  (List.range probs.length).map fun i => (probs.take (i + 1)).sum * 100

/-- `moves[cumulative_dist >= mc_number][0]` (mc.py line 90): the first move
whose cumulative probability is at least the Monte Carlo draw.  `none` means
the boolean mask is empty and the source would raise an IndexError. -/
def selectMove (moves : List G) (cum : List ℚ) (d : ℚ) : Option G :=
  match cum.findIdx? (fun c => decide (d ≤ c)) with
  | some i => moves[i]?
  | none => none

/-- Outcome of one iteration body of `monte_carlo`'s loop. -/
inductive McStep (G : Type) where
  | stuck : McStep G
  | move (g : G) : McStep G
  | sampleFail : McStep G
deriving DecidableEq

/-- One iteration body of `monte_carlo` (mc.py lines 64–90): enumerate
neighbors, normalize the model outputs, check for a stuck state
(`self_prob == 1`), and otherwise inverse-CDF sample the move using the
uniform draw `d`. -/
def mcStep (nbrs : G → List G) (phen : G → ℚ) (model : ℚ → ℚ → Option ℚ)
    (current : G) (d : ℚ) : McStep G :=
  if self_prob phen model current (nbrs current) = 1 then
    McStep.stuck
  else
    match selectMove (nbrs current ++ [current])
        (cumulative_dist (trans_prob phen model current (nbrs current) ++
          [self_prob phen model current (nbrs current)])) d with
    | some g => McStep.move g
    | none => McStep.sampleFail

/-- The `while` loop of `monte_carlo` (mc.py lines 63–96), including the
post-loop convergence check.  State: `visited` trajectory, its `last`
element, and the move counter `nmoves`.  The guard is checked before fuel so
that loop exits are faithful at any fuel. -/
def mcLoop (nbrs : G → List G) (phen : G → ℚ) (model : ℚ → ℚ → Option ℚ)
    (target : G) (max_moves : ℤ) (return_bad : Bool) (rng : ℕ → ℚ) :
    ℕ → List G → G → ℕ → Option (Except (EvolverError G) (List G))
  | 0, visited, last, nmoves =>
    if last ≠ target ∧ (nmoves : ℤ) ≤ max_moves then
      none
    else if max_moves < (nmoves : ℤ) then
      some (Except.error EvolverError.exceeded)
    else
      some (Except.ok visited)
  | fuel + 1, visited, last, nmoves =>
    if last ≠ target ∧ (nmoves : ℤ) ≤ max_moves then
      match mcStep nbrs phen model last (rng nmoves) with
      | McStep.stuck =>
          some (if return_bad then Except.ok visited
                else Except.error (EvolverError.stuck visited))
      | McStep.move new =>
          mcLoop nbrs phen model target max_moves return_bad rng
            fuel (visited ++ [new]) new (nmoves + 1)
      | McStep.sampleFail => none
    else if max_moves < (nmoves : ℤ) then
      some (Except.error EvolverError.exceeded)
    else
      some (Except.ok visited)

/-- `monte_carlo` (mc.py lines 8–96).  The neighbors method, the
genotype→phenotype mapping and the model are the external collaborators;
the loop is bounded by its own guard, so the fuel `(max_moves+1).toNat + 1`
always suffices. -/
def monte_carlo (nbrs : G → List G) (phen : G → ℚ) (model : ℚ → ℚ → Option ℚ)
    (source target : G) (max_moves : ℤ) (return_bad : Bool) (rng : ℕ → ℚ) :
    Option (Except (EvolverError G) (List G)) :=
  mcLoop nbrs phen model target max_moves return_bad rng
    ((max_moves + 1).toNat + 1) [source] source 0

/-- Exit information of `monte_carlo`'s loop: where the run left the loop
and with which internal state, before the raise/return decision is applied.
Used to reason about the (otherwise unobservable) state at the raise site. -/
inductive McExit (G : Type) where
  | stuckAt (visited : List G) : McExit G
  | sampleFail : McExit G
  | finished (visited : List G) (nmoves : ℕ) : McExit G
deriving DecidableEq

/-- The loop of `monte_carlo` instrumented to report its exit state instead
of applying the raise/return decision. -/
def mcLoopExit (nbrs : G → List G) (phen : G → ℚ) (model : ℚ → ℚ → Option ℚ)
    (target : G) (max_moves : ℤ) (rng : ℕ → ℚ) :
    ℕ → List G → G → ℕ → Option (McExit G)
  | 0, visited, last, nmoves =>
    if last ≠ target ∧ (nmoves : ℤ) ≤ max_moves then
      none
    else
      some (McExit.finished visited nmoves)
  | fuel + 1, visited, last, nmoves =>
    if last ≠ target ∧ (nmoves : ℤ) ≤ max_moves then
      match mcStep nbrs phen model last (rng nmoves) with
      | McStep.stuck => some (McExit.stuckAt visited)
      | McStep.move new =>
          mcLoopExit nbrs phen model target max_moves rng
            fuel (visited ++ [new]) new (nmoves + 1)
      | McStep.sampleFail => some McExit.sampleFail
    else
      some (McExit.finished visited nmoves)

/-- The raise/return decision of `monte_carlo` applied to an exit state
(mc.py lines 79–84 and 93–96). -/
def mcPost (max_moves : ℤ) (return_bad : Bool) :
    McExit G → Option (Except (EvolverError G) (List G))
  | McExit.stuckAt v =>
      some (if return_bad then Except.ok v
            else Except.error (EvolverError.stuck v))
  | McExit.sampleFail => none
  | McExit.finished v n =>
      some (if max_moves < (n : ℤ) then Except.error EvolverError.exceeded
            else Except.ok v)

/-- The Metropolis acceptance test `mc_number < mc_fixation`
(mc.py line 149); a NaN fixation probability compares false. -/
def metAccept (u : ℚ) (p : Option ℚ) : Bool :=
  match p with
  | some q => decide (u < q)
  | none => false

/-- The `while` loop of `monte_carlo_metropolis_criterion`
(mc.py lines 138–157), including the post-loop convergence check.  State:
trajectory `visited`, its `last` element, the failure counter `fails`, and
the draw counter `k`. -/
def metLoop (nbrs : G → List G) (phen : G → ℚ) (model : ℚ → ℚ → Option ℚ)
    (target : G) (max_fails : ℤ) (uChoice : ℕ → ℕ) (uRand : ℕ → ℚ) :
    ℕ → List G → G → ℕ → ℕ → Option (Except (EvolverError G) (List G))
  | 0, visited, last, fails, _ =>
    if last ≠ target ∧ (fails : ℤ) ≤ max_fails then
      none
    else if max_fails < (fails : ℤ) then
      some (Except.error EvolverError.exceeded)
    else
      some (Except.ok visited)
  | fuel + 1, visited, last, fails, k =>
    if last ≠ target ∧ (fails : ℤ) ≤ max_fails then
      match (nbrs last ++ [last])[uChoice k]? with
      | none => none
      | some mc_choice =>
        if metAccept (uRand k) (model (phen last) (phen mc_choice)) then
          metLoop nbrs phen model target max_fails uChoice uRand
            fuel (visited ++ [mc_choice]) mc_choice fails (k + 1)
        else
          metLoop nbrs phen model target max_fails uChoice uRand
            fuel (visited ++ [last]) last (fails + 1) (k + 1)
    else if max_fails < (fails : ℤ) then
      some (Except.error EvolverError.exceeded)
    else
      some (Except.ok visited)

/-- `monte_carlo_metropolis_criterion` (mc.py lines 98–157).  The loop is
not bounded by its guard (accepted moves never increment `fails`), so the
caller supplies fuel. -/
def monte_carlo_metropolis_criterion (nbrs : G → List G) (phen : G → ℚ)
    (model : ℚ → ℚ → Option ℚ) (source target : G) (max_fails : ℤ)
    (uChoice : ℕ → ℕ) (uRand : ℕ → ℚ) (fuel : ℕ) :
    Option (Except (EvolverError G) (List G)) :=
  metLoop nbrs phen model target max_fails uChoice uRand fuel [source] source 0 0

/-- The Metropolis loop instrumented to report its exit state
`(visited, fails)` instead of applying the raise/return decision. -/
def metLoopExit (nbrs : G → List G) (phen : G → ℚ) (model : ℚ → ℚ → Option ℚ)
    (target : G) (max_fails : ℤ) (uChoice : ℕ → ℕ) (uRand : ℕ → ℚ) :
    ℕ → List G → G → ℕ → ℕ → Option (List G × ℕ)
  | 0, visited, last, fails, _ =>
    if last ≠ target ∧ (fails : ℤ) ≤ max_fails then
      none
    else
      some (visited, fails)
  | fuel + 1, visited, last, fails, k =>
    if last ≠ target ∧ (fails : ℤ) ≤ max_fails then
      match (nbrs last ++ [last])[uChoice k]? with
      | none => none
      | some mc_choice =>
        if metAccept (uRand k) (model (phen last) (phen mc_choice)) then
          metLoopExit nbrs phen model target max_fails uChoice uRand
            fuel (visited ++ [mc_choice]) mc_choice fails (k + 1)
        else
          metLoopExit nbrs phen model target max_fails uChoice uRand
            fuel (visited ++ [last]) last (fails + 1) (k + 1)
    else
      some (visited, fails)

/-- One draw of `MarkovChain.simulate` (mcmc_path_sampling.py lines 79–81):
locate the current genotype's row, read its pmf, and ask the discrete
sampler oracle for the next genotype. -/
def simStep (genotypes : List G) (tm : List (List ℚ)) (rvs : List ℚ → ℕ → ℕ)
    (k : ℕ) (curr : G) : Option G :=
  match genotypes.indexOf? curr with
  | none => none
  | some i =>
    match tm[i]? with
    | none => none
    | some pmf => genotypes[rvs pmf k]?

/-- The `while` loop of `MarkovChain.simulate` (mcmc_path_sampling.py
lines 76–86): step until the current state is in the mutant set, appending
every drawn state to the path. -/
def simulateLoop (genotypes : List G) (tm : List (List ℚ))
    (rvs : List ℚ → ℕ → ℕ) (mutant : List G) :
    ℕ → ℕ → G → List G → Option (List G)
  | 0, _, curr, path =>
    if curr ∈ mutant then
      some path
    else
      none
  | fuel + 1, k, curr, path =>
    if curr ∈ mutant then
      some path
    else
      match simStep genotypes tm rvs k curr with
      | none => none
      | some s => simulateLoop genotypes tm rvs mutant fuel (k + 1) s (path ++ [s])

/-- `MarkovChain.simulate` (mcmc_path_sampling.py lines 55–89): start at the
(binary) wildtype, walk the transition matrix until a mutant genotype is
reached, and return the log's path. -/
def simulate (genotypes : List G) (tm : List (List ℚ)) (rvs : List ℚ → ℕ → ℕ)
    (mutant : List G) (wildtype : G) (fuel : ℕ) : Option (List G) :=
  simulateLoop genotypes tm rvs mutant fuel 0 wildtype [wildtype]

/-- Number of positions `i > 0` of a list with `l[i] = l[i-1]` (the
duplicated steps of a trajectory). -/
def dupCount : List G → ℕ
  | a :: b :: t => (if a = b then 1 else 0) + dupCount (b :: t)
  | _ => 0

end Walkers

section ConcreteEnvironments

/-- Concrete neighbor enumerator: every genotype has the single neighbor 1. -/
def nbrsOne : ℕ → List ℕ := fun _ => [1]

/-- Concrete neighbor enumerator: every genotype n has the single neighbor n+1. -/
def nbrsUp : ℕ → List ℕ := fun n => [n + 1]

/-- Concrete phenotype lookup: the genotype's own value. -/
def phenNat : ℕ → ℚ := fun n => (n : ℚ)

/-- Concrete fixation model that always returns probability 1. -/
def modelOne : ℚ → ℚ → Option ℚ := fun _ _ => some 1

/-- Concrete fixation model that always returns probability 0. -/
def modelZero : ℚ → ℚ → Option ℚ := fun _ _ => some 0

/-- Concrete fixation model returning 0 on equal fitness values and 1
otherwise (used to separate behaviour on and off the diagonal). -/
def modelDiag : ℚ → ℚ → Option ℚ := fun a b => if a = b then some 0 else some 1

/-- Concrete uniform oracle always drawing 0. -/
def rngZero : ℕ → ℚ := fun _ => 0

/-- Concrete index oracle always drawing index 0. -/
def idxZero : ℕ → ℕ := fun _ => 0

/-- Concrete index oracle drawing index 1 first, then index 0. -/
def idxSelfFirst : ℕ → ℕ := fun k => if k = 0 then 1 else 0

/-- Concrete discrete-sampler oracle always drawing index 1. -/
def rvsOne : List ℚ → ℕ → ℕ := fun _ _ => 1

end ConcreteEnvironments

section HelperLemmas

lemma head?_append_left {G : Type} (l l' : List G) (a : G) (h : l.head? = some a) :
    (l ++ l').head? = some a := by
  cases l with
  | nil => simp at h
  | cons b t => simpa using h

lemma mem_dropLast_or_eq_last {G : Type} (l : List G) (a g : G) (hl : l.getLast? = some a)
    (hg : g ∈ l) : g ∈ l.dropLast ∨ g = a := by
  have hne : l ≠ [] := by
    intro h
    rw [h] at hl
    simp at hl
  have hdecomp : l.dropLast ++ [l.getLast hne] = l := List.dropLast_append_getLast hne
  have hlast : l.getLast hne = a := by
    have := List.getLast?_eq_getLast l hne
    rw [this] at hl
    exact Option.some_injective _ hl
  rw [← hdecomp] at hg
  rcases List.mem_append.mp hg with h | h
  · exact Or.inl h
  · right
    rw [← hlast]
    simpa using h

lemma dupCount_concat {G : Type} [DecidableEq G] :
    ∀ (v : List G) (a x : G), v.getLast? = some a →
    dupCount (v ++ [x]) = dupCount v + if x = a then 1 else 0
  | [], a, x, h => by simp at h
  | [b], a, x, h => by
    have hab : a = b := by
      simp only [List.getLast?_singleton] at h
      exact (Option.some_injective _ h).symm
    subst hab
    by_cases hx : x = a
    · subst hx
      simp [dupCount]
    · have hx2 : ¬ a = x := fun hc => hx hc.symm
      simp [dupCount, hx, hx2]
  | b :: c :: t, a, x, h => by
    have hlast : (c :: t).getLast? = some a := by
      rwa [List.getLast?_cons_cons] at h
    have ih := dupCount_concat (c :: t) a x hlast
    have h1 : dupCount ((b :: c :: t) ++ [x]) =
        (if b = c then 1 else 0) + dupCount ((c :: t) ++ [x]) := rfl
    have h2 : dupCount (b :: c :: t) = (if b = c then 1 else 0) + dupCount (c :: t) := rfl
    rw [h1, h2, ih]
    omega

lemma dupCount_le_concat {G : Type} [DecidableEq G]
    (v : List G) (a x : G) (h : v.getLast? = some a) :
    dupCount v ≤ dupCount (v ++ [x]) := by
  rw [dupCount_concat v a x h]
  omega

lemma selectMove_mem {G : Type} (moves : List G) (cum : List ℚ) (d : ℚ) (g : G)
    (h : selectMove moves cum d = some g) : g ∈ moves := by
  unfold selectMove at h
  cases hf : cum.findIdx? (fun c => decide (d ≤ c)) with
  | none => rw [hf] at h; exact absurd h (by simp)
  | some i =>
    rw [hf] at h
    exact List.getElem?_mem h

lemma mcStep_stuck_iff {G : Type} (nbrs : G → List G) (phen : G → ℚ)
    (model : ℚ → ℚ → Option ℚ) (current : G) (d : ℚ) :
    mcStep nbrs phen model current d = McStep.stuck ↔
      self_prob phen model current (nbrs current) = 1 := by
  unfold mcStep
  by_cases h : self_prob phen model current (nbrs current) = 1
  · simp [h]
  · cases hsel : selectMove (nbrs current ++ [current])
        (cumulative_dist (trans_prob phen model current (nbrs current) ++
          [self_prob phen model current (nbrs current)])) d with
    | some g => simp [h, hsel]
    | none => simp [h, hsel]

lemma mcStep_move_mem {G : Type} (nbrs : G → List G) (phen : G → ℚ)
    (model : ℚ → ℚ → Option ℚ) (current : G) (d : ℚ) (g : G)
    (h : mcStep nbrs phen model current d = McStep.move g) :
    g ∈ nbrs current ++ [current] := by
  unfold mcStep at h
  by_cases hs : self_prob phen model current (nbrs current) = 1
  · simp [hs] at h
  · cases hsel : selectMove (nbrs current ++ [current])
        (cumulative_dist (trans_prob phen model current (nbrs current) ++
          [self_prob phen model current (nbrs current)])) d with
    | some g2 =>
      simp only [hs, if_false, hsel, McStep.move.injEq] at h
      subst h
      exact selectMove_mem _ _ _ _ hsel
    | none => simp [hs, hsel] at h

end HelperLemmas

section LoopLemmas

variable {G : Type} [DecidableEq G]
variable (nbrs : G → List G) (phen : G → ℚ) (model : ℚ → ℚ → Option ℚ)

/-- `mcLoop` is `mcLoopExit` followed by the raise/return decision. -/
lemma mc_refine (target : G) (max_moves : ℤ) (return_bad : Bool) (rng : ℕ → ℚ) :
    ∀ (fuel : ℕ) (visited : List G) (last : G) (nmoves : ℕ),
    mcLoop nbrs phen model target max_moves return_bad rng fuel visited last nmoves =
      (mcLoopExit nbrs phen model target max_moves rng fuel visited last nmoves).bind
        (mcPost max_moves return_bad) := by
  intro fuel
  induction fuel with
  | zero =>
    intro visited last nmoves
    by_cases hg : last ≠ target ∧ (nmoves : ℤ) ≤ max_moves
    · simp [mcLoop, mcLoopExit, hg]
    · simp only [mcLoop, mcLoopExit, if_neg hg]
      by_cases hm : max_moves < (nmoves : ℤ)
      · simp [hm, mcPost]
      · simp [hm, mcPost]
  | succ fuel ih =>
    intro visited last nmoves
    by_cases hg : last ≠ target ∧ (nmoves : ℤ) ≤ max_moves
    · cases hstep : mcStep nbrs phen model last (rng nmoves) with
      | stuck => simp [mcLoop, mcLoopExit, hg, hstep, mcPost]
      | move new => simp [mcLoop, mcLoopExit, hg, hstep, ih]
      | sampleFail => simp [mcLoop, mcLoopExit, hg, hstep, mcPost]
    · simp only [mcLoop, mcLoopExit, if_neg hg]
      by_cases hm : max_moves < (nmoves : ℤ)
      · simp [hm, mcPost]
      · simp [hm, mcPost]

/-- `metLoop` is `metLoopExit` followed by the raise/return decision. -/
lemma met_refine (target : G) (max_fails : ℤ) (uChoice : ℕ → ℕ) (uRand : ℕ → ℚ) :
    ∀ (fuel : ℕ) (visited : List G) (last : G) (fails k : ℕ),
    metLoop nbrs phen model target max_fails uChoice uRand fuel visited last fails k =
      (metLoopExit nbrs phen model target max_fails uChoice uRand
          fuel visited last fails k).map
        (fun p => if max_fails < (p.2 : ℤ) then Except.error EvolverError.exceeded
                  else Except.ok p.1) := by
  intro fuel
  induction fuel with
  | zero =>
    intro visited last fails k
    by_cases hg : last ≠ target ∧ (fails : ℤ) ≤ max_fails
    · simp [metLoop, metLoopExit, hg]
    · simp only [metLoop, metLoopExit, if_neg hg]
      by_cases hm : max_fails < (fails : ℤ)
      · simp [hm]
      · simp [hm]
  | succ fuel ih =>
    intro visited last fails k
    by_cases hg : last ≠ target ∧ (fails : ℤ) ≤ max_fails
    · cases hc : (nbrs last ++ [last])[uChoice k]? with
      | none => simp [metLoop, metLoopExit, hg, hc]
      | some mc_choice =>
        by_cases ha : metAccept (uRand k) (model (phen last) (phen mc_choice)) = true
        · simp [metLoop, metLoopExit, hg, hc, ha, ih]
        · simp [metLoop, metLoopExit, hg, hc, ha, ih]
    · simp only [metLoop, metLoopExit, if_neg hg]
      by_cases hm : max_fails < (fails : ℤ)
      · simp [hm]
      · simp [hm]

/-- Inductive characterization of successful `mcLoop` runs with
`return_bad = false`: the returned trajectory keeps the initial head and
ends at the target. -/
lemma mcLoop_ok_endpoints (target : G) (max_moves : ℤ) (rng : ℕ → ℚ) (s : G) :
    ∀ (fuel : ℕ) (visited : List G) (last : G) (nmoves : ℕ) (w : List G),
    visited.head? = some s →
    visited.getLast? = some last →
    mcLoop nbrs phen model target max_moves false rng fuel visited last nmoves =
      some (Except.ok w) →
    w.head? = some s ∧ w.getLast? = some target := by
  intro fuel
  induction fuel with
  | zero =>
    intro visited last nmoves w hh hl hrun
    by_cases hg : last ≠ target ∧ (nmoves : ℤ) ≤ max_moves
    · simp [mcLoop, hg] at hrun
    · by_cases hm : max_moves < (nmoves : ℤ)
      · simp [mcLoop, hg, hm] at hrun
      · simp [mcLoop, hg, hm] at hrun
        have hlt : last = target := by
          by_contra hne
          exact hg ⟨hne, by omega⟩
        subst hrun
        exact ⟨hh, hlt ▸ hl⟩
  | succ fuel ih =>
    intro visited last nmoves w hh hl hrun
    by_cases hg : last ≠ target ∧ (nmoves : ℤ) ≤ max_moves
    · cases hstep : mcStep nbrs phen model last (rng nmoves) with
      | stuck => simp [mcLoop, hg, hstep] at hrun
      | move new =>
        simp only [mcLoop, if_pos hg, hstep] at hrun
        exact ih (visited ++ [new]) new (nmoves + 1) w
          (head?_append_left _ _ _ hh) (List.getLast?_concat _) hrun
      | sampleFail => simp [mcLoop, hg, hstep] at hrun
    · by_cases hm : max_moves < (nmoves : ℤ)
      · simp [mcLoop, hg, hm] at hrun
      · simp [mcLoop, hg, hm] at hrun
        have hlt : last = target := by
          by_contra hne
          exact hg ⟨hne, by omega⟩
        subst hrun
        exact ⟨hh, hlt ▸ hl⟩

/-- Inductive characterization of successful `metLoop` runs: the returned
trajectory keeps the initial head and ends at the target. -/
lemma metLoop_ok_endpoints (target : G) (max_fails : ℤ) (uChoice : ℕ → ℕ)
    (uRand : ℕ → ℚ) (s : G) :
    ∀ (fuel : ℕ) (visited : List G) (last : G) (fails k : ℕ) (w : List G),
    visited.head? = some s →
    visited.getLast? = some last →
    metLoop nbrs phen model target max_fails uChoice uRand fuel visited last fails k =
      some (Except.ok w) →
    w.head? = some s ∧ w.getLast? = some target := by
  intro fuel
  induction fuel with
  | zero =>
    intro visited last fails k w hh hl hrun
    by_cases hg : last ≠ target ∧ (fails : ℤ) ≤ max_fails
    · simp [metLoop, hg] at hrun
    · by_cases hm : max_fails < (fails : ℤ)
      · simp [metLoop, hg, hm] at hrun
      · simp [metLoop, hg, hm] at hrun
        have hlt : last = target := by
          by_contra hne
          exact hg ⟨hne, by omega⟩
        subst hrun
        exact ⟨hh, hlt ▸ hl⟩
  | succ fuel ih =>
    intro visited last fails k w hh hl hrun
    by_cases hg : last ≠ target ∧ (fails : ℤ) ≤ max_fails
    · cases hc : (nbrs last ++ [last])[uChoice k]? with
      | none => simp [metLoop, hg, hc] at hrun
      | some mc_choice =>
        simp only [metLoop, if_pos hg, hc] at hrun
        by_cases ha : metAccept (uRand k) (model (phen last) (phen mc_choice)) = true
        · rw [if_pos ha] at hrun
          exact ih (visited ++ [mc_choice]) mc_choice fails (k + 1) w
            (head?_append_left _ _ _ hh) (List.getLast?_concat _) hrun
        · rw [if_neg ha] at hrun
          exact ih (visited ++ [last]) last (fails + 1) (k + 1) w
            (head?_append_left _ _ _ hh) (List.getLast?_concat _) hrun
    · by_cases hm : max_fails < (fails : ℤ)
      · simp [metLoop, hg, hm] at hrun
      · simp [metLoop, hg, hm] at hrun
        have hlt : last = target := by
          by_contra hne
          exact hg ⟨hne, by omega⟩
        subst hrun
        exact ⟨hh, hlt ▸ hl⟩

/-- Inductive characterization of successful `simulateLoop` runs: the
returned path keeps the initial head, ends at a mutant genotype, and
contains no mutant genotype before its last element. -/
lemma simulateLoop_inv (genotypes : List G) (tm : List (List ℚ))
    (rvs : List ℚ → ℕ → ℕ) (mutant : List G) (w0 : G) :
    ∀ (fuel k : ℕ) (curr : G) (path q : List G),
    path.head? = some w0 →
    path.getLast? = some curr →
    (∀ g ∈ path.dropLast, g ∉ mutant) →
    simulateLoop genotypes tm rvs mutant fuel k curr path = some q →
    q.head? = some w0 ∧ (∃ gl, q.getLast? = some gl ∧ gl ∈ mutant) ∧
      ∀ g ∈ q.dropLast, g ∉ mutant := by
  intro fuel
  induction fuel with
  | zero =>
    intro k curr path q hh hl hdl hrun
    by_cases hmem : curr ∈ mutant
    · simp only [simulateLoop, if_pos hmem, Option.some.injEq] at hrun
      subst hrun
      exact ⟨hh, ⟨curr, hl, hmem⟩, hdl⟩
    · simp [simulateLoop, hmem] at hrun
  | succ fuel ih =>
    intro k curr path q hh hl hdl hrun
    by_cases hmem : curr ∈ mutant
    · simp only [simulateLoop, if_pos hmem, Option.some.injEq] at hrun
      subst hrun
      exact ⟨hh, ⟨curr, hl, hmem⟩, hdl⟩
    · cases hstep : simStep genotypes tm rvs k curr with
      | none => simp [simulateLoop, hmem, hstep] at hrun
      | some s2 =>
        simp only [simulateLoop, if_neg hmem, hstep] at hrun
        refine ih (k + 1) s2 (path ++ [s2]) q
          (head?_append_left _ _ _ hh) (List.getLast?_concat _) ?_ hrun
        intro g hg
        rw [List.dropLast_concat] at hg
        rcases mem_dropLast_or_eq_last path curr g hl hg with h | h
        · exact hdl g h
        · rw [h]
          exact hmem

/-- Error runs of `mcLoop`: every raised error is either a stuck error
carrying the accumulated trajectory (only when `return_bad = false`; the
carried trajectory still starts at the initial head) or the
budget-exceeded error, which carries nothing. -/
lemma mcLoop_error_cases (target : G) (max_moves : ℤ) (return_bad : Bool)
    (rng : ℕ → ℚ) (s : G) :
    ∀ (fuel : ℕ) (visited : List G) (last : G) (nmoves : ℕ) (e : EvolverError G),
    visited.head? = some s →
    mcLoop nbrs phen model target max_moves return_bad rng fuel visited last nmoves =
      some (Except.error e) →
    (∃ p, e = EvolverError.stuck p ∧ return_bad = false ∧ p.head? = some s) ∨
      e = EvolverError.exceeded := by
  intro fuel
  induction fuel with
  | zero =>
    intro visited last nmoves e hh hrun
    by_cases hg : last ≠ target ∧ (nmoves : ℤ) ≤ max_moves
    · simp [mcLoop, hg] at hrun
    · by_cases hm : max_moves < (nmoves : ℤ)
      · simp only [mcLoop, if_neg hg, if_pos hm, Option.some.injEq,
          Except.error.injEq] at hrun
        exact Or.inr hrun.symm
      · simp [mcLoop, hg, hm] at hrun
  | succ fuel ih =>
    intro visited last nmoves e hh hrun
    by_cases hg : last ≠ target ∧ (nmoves : ℤ) ≤ max_moves
    · cases hstep : mcStep nbrs phen model last (rng nmoves) with
      | stuck =>
        simp only [mcLoop, if_pos hg, hstep, Option.some.injEq] at hrun
        cases hrb : return_bad with
        | true => rw [hrb] at hrun; simp at hrun
        | false =>
          rw [hrb] at hrun
          simp only [Bool.false_eq_true, if_false] at hrun
          left
          refine ⟨visited, ?_, rfl, hh⟩
          cases hrun
          rfl
      | move new =>
        simp only [mcLoop, if_pos hg, hstep] at hrun
        exact ih (visited ++ [new]) new (nmoves + 1) e
          (head?_append_left _ _ _ hh) hrun
      | sampleFail => simp [mcLoop, hg, hstep] at hrun
    · by_cases hm : max_moves < (nmoves : ℤ)
      · simp only [mcLoop, if_neg hg, if_pos hm, Option.some.injEq,
          Except.error.injEq] at hrun
        exact Or.inr hrun.symm
      · simp [mcLoop, hg, hm] at hrun

/-- Error runs of `metLoop`: the only error the Metropolis walker ever
raises is the budget-exceeded error, which carries nothing. -/
lemma metLoop_error_exceeded (target : G) (max_fails : ℤ) (uChoice : ℕ → ℕ)
    (uRand : ℕ → ℚ) (fuel : ℕ) (visited : List G) (last : G) (fails k : ℕ)
    (e : EvolverError G)
    (hrun : metLoop nbrs phen model target max_fails uChoice uRand
      fuel visited last fails k = some (Except.error e)) :
    e = EvolverError.exceeded := by
  rw [met_refine] at hrun
  cases hx : metLoopExit nbrs phen model target max_fails uChoice uRand
      fuel visited last fails k with
  | none => rw [hx] at hrun; simp at hrun
  | some p =>
    rw [hx] at hrun
    by_cases hm : max_fails < (p.2 : ℤ)
    · simp only [Option.map_some', hm, if_true, Option.some.injEq,
        Except.error.injEq] at hrun
      exact hrun.symm
    · simp [hm] at hrun

/-- Failure-counter bound along `metLoopExit` runs: the counter grows by at
most the number of new duplicate positions in the trajectory. -/
lemma metExit_dups (target : G) (max_fails : ℤ) (uChoice : ℕ → ℕ)
    (uRand : ℕ → ℚ) :
    ∀ (fuel : ℕ) (visited : List G) (last : G) (fails k : ℕ)
      (w : List G) (f2 : ℕ),
    visited.getLast? = some last →
    metLoopExit nbrs phen model target max_fails uChoice uRand
      fuel visited last fails k = some (w, f2) →
    f2 + dupCount visited ≤ fails + dupCount w := by
  intro fuel
  induction fuel with
  | zero =>
    intro visited last fails k w f2 hl hrun
    by_cases hg : last ≠ target ∧ (fails : ℤ) ≤ max_fails
    · simp [metLoopExit, hg] at hrun
    · simp only [metLoopExit, if_neg hg, Option.some.injEq, Prod.mk.injEq] at hrun
      obtain ⟨h1, h2⟩ := hrun
      subst h1
      subst h2
      omega
  | succ fuel ih =>
    intro visited last fails k w f2 hl hrun
    by_cases hg : last ≠ target ∧ (fails : ℤ) ≤ max_fails
    · cases hc : (nbrs last ++ [last])[uChoice k]? with
      | none => simp [metLoopExit, hg, hc] at hrun
      | some mc_choice =>
        simp only [metLoopExit, if_pos hg, hc] at hrun
        by_cases ha : metAccept (uRand k) (model (phen last) (phen mc_choice)) = true
        · rw [if_pos ha] at hrun
          have h1 := ih (visited ++ [mc_choice]) mc_choice fails (k + 1) w f2
            (List.getLast?_concat _) hrun
          have h2 := dupCount_le_concat visited last mc_choice hl
          omega
        · rw [if_neg ha] at hrun
          have h1 := ih (visited ++ [last]) last (fails + 1) (k + 1) w f2
            (List.getLast?_concat _) hrun
          have h2 := dupCount_concat visited last last hl
          simp at h2
          omega
    · simp only [metLoopExit, if_neg hg, Option.some.injEq, Prod.mk.injEq] at hrun
      obtain ⟨h1, h2⟩ := hrun
      subst h1
      subst h2
      omega

/-- Adjacency invariant along `mcLoop` runs: if the neighbor enumerator
respects a relation `R`, every trajectory the loop returns — whether as a
success or carried by a stuck error — is a chain whose consecutive distinct
elements are `R`-related. -/
lemma mcLoop_chain (target : G) (max_moves : ℤ) (return_bad : Bool)
    (rng : ℕ → ℚ) (R : G → G → Prop) (hR : ∀ g n, n ∈ nbrs g → R g n) :
    ∀ (fuel : ℕ) (visited : List G) (last : G) (nmoves : ℕ)
      (res : Except (EvolverError G) (List G)),
    visited.getLast? = some last →
    List.Chain' (fun a b => a = b ∨ R a b) visited →
    mcLoop nbrs phen model target max_moves return_bad rng fuel visited last nmoves =
      some res →
    ∀ w, (res = Except.ok w ∨ res = Except.error (EvolverError.stuck w)) →
      List.Chain' (fun a b => a = b ∨ R a b) w := by
  intro fuel
  induction fuel with
  | zero =>
    intro visited last nmoves res hl hch hrun w hw
    by_cases hg : last ≠ target ∧ (nmoves : ℤ) ≤ max_moves
    · simp [mcLoop, hg] at hrun
    · by_cases hm : max_moves < (nmoves : ℤ)
      · simp only [mcLoop, if_neg hg, if_pos hm, Option.some.injEq] at hrun
        subst hrun
        rcases hw with hw | hw <;> simp at hw
      · simp only [mcLoop, if_neg hg, if_neg hm, Option.some.injEq] at hrun
        subst hrun
        rcases hw with hw | hw
        · cases hw
          exact hch
        · simp at hw
  | succ fuel ih =>
    intro visited last nmoves res hl hch hrun w hw
    by_cases hg : last ≠ target ∧ (nmoves : ℤ) ≤ max_moves
    · cases hstep : mcStep nbrs phen model last (rng nmoves) with
      | stuck =>
        simp only [mcLoop, if_pos hg, hstep, Option.some.injEq] at hrun
        subst hrun
        cases hrb : return_bad with
        | true =>
          rw [hrb] at hw
          simp only [if_true] at hw
          rcases hw with hw | hw
          · cases hw
            exact hch
          · simp at hw
        | false =>
          rw [hrb] at hw
          simp only [Bool.false_eq_true, if_false] at hw
          rcases hw with hw | hw
          · simp at hw
          · simp only [Except.error.injEq, EvolverError.stuck.injEq] at hw
            rw [← hw]
            exact hch
      | move new =>
        simp only [mcLoop, if_pos hg, hstep] at hrun
        have hmem := mcStep_move_mem nbrs phen model last (rng nmoves) new hstep
        have hch2 : List.Chain' (fun a b => a = b ∨ R a b) (visited ++ [new]) := by
          rw [List.chain'_append]
          refine ⟨hch, List.chain'_singleton _, ?_⟩
          intro x hx y hy
          rw [hl] at hx
          simp only [Option.mem_def, Option.some.injEq] at hx
          simp only [List.head?_cons, Option.mem_def, Option.some.injEq] at hy
          subst hx
          subst hy
          rcases List.mem_append.mp hmem with h | h
          · exact Or.inr (hR last new h)
          · simp only [List.mem_singleton] at h
            exact Or.inl h.symm
        exact ih (visited ++ [new]) new (nmoves + 1) res
          (List.getLast?_concat _) hch2 hrun w hw
      | sampleFail => simp [mcLoop, hg, hstep] at hrun
    · by_cases hm : max_moves < (nmoves : ℤ)
      · simp only [mcLoop, if_neg hg, if_pos hm, Option.some.injEq] at hrun
        subst hrun
        rcases hw with hw | hw <;> simp at hw
      · simp only [mcLoop, if_neg hg, if_neg hm, Option.some.injEq] at hrun
        subst hrun
        rcases hw with hw | hw
        · cases hw
          exact hch
        · simp at hw

end LoopLemmas

section SanityChecks

example :
    monte_carlo nbrsOne phenNat modelOne 0 1 10 false rngZero =
      some (Except.ok [0, 1]) := by
  norm_num [monte_carlo, mcLoop, mcStep, trans_prob, fixations, self_prob,
    cumulative_dist, selectMove, nanToNum, nbrsOne, phenNat, modelOne, rngZero,
    List.findIdx?]

example :
    monte_carlo nbrsOne phenNat modelOne 0 1 0 false rngZero =
      some (Except.error EvolverError.exceeded) := by
  norm_num [monte_carlo, mcLoop, mcStep, trans_prob, fixations, self_prob,
    cumulative_dist, selectMove, nanToNum, nbrsOne, phenNat, modelOne, rngZero,
    List.findIdx?]

example :
    monte_carlo nbrsOne phenNat modelZero 0 1 10 false rngZero =
      some (Except.error (EvolverError.stuck [0])) := by
  norm_num [monte_carlo, mcLoop, mcStep, trans_prob, fixations, self_prob,
    cumulative_dist, selectMove, nanToNum, nbrsOne, phenNat, modelZero, rngZero,
    List.findIdx?]

example :
    monte_carlo_metropolis_criterion nbrsOne phenNat modelOne 0 1 1000 idxZero rngZero 5 =
      some (Except.ok [0, 1]) := by decide

example :
    monte_carlo_metropolis_criterion nbrsOne phenNat modelOne 0 1 1000 idxSelfFirst rngZero 5 =
      some (Except.ok [0, 0, 1]) := by decide

example :
    simulate [0, 1] [[0, 1], [0, 1]] rvsOne [1] 0 2 = some [0, 1] := by decide

end SanityChecks

section Claims

/-- Claim C1 (corrected).  For every trajectory returned without an error:
with `return_bad = false` the `monte_carlo` trajectory starts at the source
and ends at the target (with `return_bad = true` a stuck run can return a
partial trajectory that does not end at the target, which is the
correction); every `monte_carlo_metropolis_criterion` success starts at the
source and ends at the target; every `MarkovChain.simulate` path starts at
the wildtype, ends at a member of the mutant set, and contains no mutant
member before its last element. -/
theorem C1_trajectory_endpoints {G : Type} [DecidableEq G]
    (nbrs : G → List G) (phen : G → ℚ) (model : ℚ → ℚ → Option ℚ) :
    (∀ (source target : G) (max_moves : ℤ) (rng : ℕ → ℚ) (v : List G),
      monte_carlo nbrs phen model source target max_moves false rng =
        some (Except.ok v) →
      v.head? = some source ∧ v.getLast? = some target) ∧
    (∀ (source target : G) (max_fails : ℤ) (uChoice : ℕ → ℕ) (uRand : ℕ → ℚ)
        (fuel : ℕ) (v : List G),
      monte_carlo_metropolis_criterion nbrs phen model source target max_fails
        uChoice uRand fuel = some (Except.ok v) →
      v.head? = some source ∧ v.getLast? = some target) ∧
    (∀ (genotypes : List G) (tm : List (List ℚ)) (rvs : List ℚ → ℕ → ℕ)
        (mutant : List G) (wildtype : G) (fuel : ℕ) (p : List G),
      simulate genotypes tm rvs mutant wildtype fuel = some p →
      p.head? = some wildtype ∧ (∃ gl, p.getLast? = some gl ∧ gl ∈ mutant) ∧
        ∀ g ∈ p.dropLast, g ∉ mutant) := by
  refine ⟨?_, ?_, ?_⟩
  · intro source target max_moves rng v h
    exact mcLoop_ok_endpoints nbrs phen model target max_moves rng source
      _ [source] source 0 v (by simp) (by simp) h
  · intro source target max_fails uChoice uRand fuel v h
    exact metLoop_ok_endpoints nbrs phen model target max_fails uChoice uRand
      source fuel [source] source 0 0 v (by simp) (by simp) h
  · intro genotypes tm rvs mutant wildtype fuel p h
    exact simulateLoop_inv genotypes tm rvs mutant wildtype fuel 0 wildtype
      [wildtype] p (by simp) (by simp) (by simp) h

/-- Claim C1, counterexample to the literal statement: with
`return_bad = true` a stuck `monte_carlo` run returns — with no error
raised — the single-element trajectory `[0]`, whose last element is not the
target `1`. -/
theorem C1_counterexample :
    monte_carlo nbrsOne phenNat modelZero 0 1 1000 true rngZero =
      some (Except.ok [0]) ∧
    ([0] : List ℕ).getLast? ≠ some 1 := by
  constructor
  · norm_num [monte_carlo, mcLoop, mcStep, trans_prob, fixations, self_prob,
      cumulative_dist, selectMove, nanToNum, nbrsOne, phenNat, modelZero, rngZero,
      List.findIdx?]
  · decide

/-- Claim C1, witness: concrete successful runs of all three samplers with
the endpoint properties obtained from the claim theorem. -/
theorem C1_witness :
    (monte_carlo nbrsOne phenNat modelOne 0 1 10 false rngZero =
      some (Except.ok [0, 1]) ∧
      ([0, 1] : List ℕ).head? = some 0 ∧ ([0, 1] : List ℕ).getLast? = some 1) ∧
    (monte_carlo_metropolis_criterion nbrsOne phenNat modelOne 0 1 1000
        idxZero rngZero 5 = some (Except.ok [0, 1]) ∧
      ([0, 1] : List ℕ).head? = some 0 ∧ ([0, 1] : List ℕ).getLast? = some 1) ∧
    (simulate [0, 1] [[0, 1], [0, 1]] rvsOne [1] 0 2 = some [0, 1] ∧
      ([0, 1] : List ℕ).head? = some 0 ∧ (0 : ℕ) ∉ ([1] : List ℕ)) := by
  have h1 : monte_carlo nbrsOne phenNat modelOne 0 1 10 false rngZero =
      some (Except.ok [0, 1]) := by
    norm_num [monte_carlo, mcLoop, mcStep, trans_prob, fixations, self_prob,
      cumulative_dist, selectMove, nanToNum, nbrsOne, phenNat, modelOne, rngZero,
      List.findIdx?]
  have h2 : monte_carlo_metropolis_criterion nbrsOne phenNat modelOne 0 1 1000
      idxZero rngZero 5 = some (Except.ok [0, 1]) := by decide
  have h3 : simulate [0, 1] [[0, 1], [0, 1]] rvsOne [1] 0 2 = some [0, 1] := by
    decide
  have hthm := C1_trajectory_endpoints nbrsOne phenNat modelOne
  have c1 := hthm.1 0 1 10 rngZero [0, 1] h1
  have c2 := hthm.2.1 0 1 1000 idxZero rngZero 5 [0, 1] h2
  have c3 := hthm.2.2 [0, 1] [[0, 1], [0, 1]] rvsOne [1] 0 2 [0, 1] h3
  exact ⟨⟨h1, c1.1, c1.2⟩, ⟨h2, c2.1, c2.2⟩,
    ⟨h3, c3.1, c3.2.2 0 (by decide)⟩⟩

/-- Claim C2 (corrected).  The Metropolis walker never raises once the
target is reached with the failure counter within budget, and neither does
`monte_carlo` once the target is reached with the move counter within
budget; but `monte_carlo` raises its max-moves error exactly when the move
counter exceeds `max_moves` at a loop check — the sufficiency direction
holds even when the current genotype already equals the target (reachable
when the target is hit on the move that pushes the counter past the
budget), which contradicts the claim's "no such error is raised", and the
necessity direction says every raised max-moves error comes from a loop
exit whose counter exceeds the budget. -/
theorem C2_budget_check {G : Type} [DecidableEq G]
    (nbrs : G → List G) (phen : G → ℚ) (model : ℚ → ℚ → Option ℚ) :
    (∀ (target : G) (max_fails : ℤ) (uChoice : ℕ → ℕ) (uRand : ℕ → ℚ)
        (fuel : ℕ) (v : List G) (last : G) (fails k : ℕ),
      last = target → (fails : ℤ) ≤ max_fails →
      metLoop nbrs phen model target max_fails uChoice uRand fuel v last fails k =
        some (Except.ok v)) ∧
    (∀ (target : G) (max_moves : ℤ) (return_bad : Bool) (rng : ℕ → ℚ)
        (fuel : ℕ) (v : List G) (last : G) (n : ℕ),
      max_moves < (n : ℤ) →
      mcLoop nbrs phen model target max_moves return_bad rng fuel v last n =
        some (Except.error EvolverError.exceeded)) ∧
    (∀ (target : G) (max_moves : ℤ) (return_bad : Bool) (rng : ℕ → ℚ)
        (fuel : ℕ) (v : List G) (last : G) (n : ℕ),
      last = target → (n : ℤ) ≤ max_moves →
      mcLoop nbrs phen model target max_moves return_bad rng fuel v last n =
        some (Except.ok v)) ∧
    (∀ (target : G) (max_moves : ℤ) (return_bad : Bool) (rng : ℕ → ℚ)
        (fuel : ℕ) (v : List G) (last : G) (n : ℕ),
      mcLoop nbrs phen model target max_moves return_bad rng fuel v last n =
        some (Except.error EvolverError.exceeded) →
      ∃ (w : List G) (m : ℕ),
        mcLoopExit nbrs phen model target max_moves rng fuel v last n =
          some (McExit.finished w m) ∧ max_moves < (m : ℤ)) := by
  refine ⟨?_, ?_, ?_, ?_⟩
  · intro target max_fails uChoice uRand fuel v last fails k hlast hfails
    subst hlast
    have hm : ¬ max_fails < (fails : ℤ) := not_lt.mpr hfails
    cases fuel with
    | zero => simp [metLoop, hm]
    | succ fuel => simp [metLoop, hm]
  · intro target max_moves return_bad rng fuel v last n hm
    have hg : ¬(last ≠ target ∧ (n : ℤ) ≤ max_moves) := by
      rintro ⟨-, h2⟩
      omega
    cases fuel with
    | zero => simp [mcLoop, hg, hm]
    | succ fuel => simp [mcLoop, hg, hm]
  · intro target max_moves return_bad rng fuel v last n hlast hn
    subst hlast
    have hm : ¬ max_moves < (n : ℤ) := not_lt.mpr hn
    cases fuel with
    | zero => simp [mcLoop, hm]
    | succ fuel => simp [mcLoop, hm]
  · intro target max_moves return_bad rng fuel v last n h
    rw [mc_refine] at h
    cases hx : mcLoopExit nbrs phen model target max_moves rng fuel v last n with
    | none => rw [hx] at h; simp at h
    | some ex =>
      rw [hx] at h
      cases ex with
      | stuckAt p =>
        cases hrb : return_bad with
        | true => simp [mcPost, hrb] at h
        | false => simp [mcPost, hrb] at h
      | sampleFail => simp [mcPost] at h
      | finished w m =>
        by_cases hm : max_moves < (m : ℤ)
        · exact ⟨w, m, rfl, hm⟩
        · simp [mcPost, hm] at h

/-- Claim C2, counterexample: with `max_moves = 0` the unique run moves from
0 straight to the target 1 — the instrumented loop exits in the state
`finished [0, 1] 1`, whose trajectory ends at the target — yet
`monte_carlo` raises the max-moves error because `nmoves = 1 > 0`. -/
theorem C2_counterexample :
    monte_carlo nbrsOne phenNat modelOne 0 1 0 false rngZero =
      some (Except.error EvolverError.exceeded) ∧
    mcLoopExit nbrsOne phenNat modelOne 1 0 rngZero 2 [0] 0 0 =
      some (McExit.finished [0, 1] 1) ∧
    ([0, 1] : List ℕ).getLast? = some 1 := by
  refine ⟨?_, ?_, by decide⟩
  · norm_num [monte_carlo, mcLoop, mcStep, trans_prob, fixations, self_prob,
      cumulative_dist, selectMove, nanToNum, nbrsOne, phenNat, modelOne, rngZero,
      List.findIdx?]
  · norm_num [mcLoopExit, mcStep, trans_prob, fixations, self_prob,
      cumulative_dist, selectMove, nanToNum, nbrsOne, phenNat, modelOne, rngZero,
      List.findIdx?]

/-- Claim C2, witness: a Metropolis loop state that has reached the target
within budget returns its trajectory without error; a `monte_carlo` loop
state whose counter exceeds the budget raises the exceeded error; a
`monte_carlo` loop state that has reached the target within budget returns
its trajectory without error; and a concrete raised max-moves error comes
from a loop exit whose counter exceeds the budget. -/
theorem C2_witness :
    metLoop nbrsOne phenNat modelOne 1 1000 idxZero rngZero 3 [0, 1] 1 0 5 =
      some (Except.ok [0, 1]) ∧
    mcLoop nbrsOne phenNat modelOne 1 0 false rngZero 3 [0, 1] 1 5 =
      some (Except.error EvolverError.exceeded) ∧
    mcLoop nbrsOne phenNat modelOne 1 1000 false rngZero 3 [0, 1] 1 1 =
      some (Except.ok [0, 1]) ∧
    (∃ (w : List ℕ) (m : ℕ),
      mcLoopExit nbrsOne phenNat modelOne 1 0 rngZero 2 [0] 0 0 =
        some (McExit.finished w m) ∧ (0 : ℤ) < (m : ℤ)) := by
  have hthm := C2_budget_check nbrsOne phenNat modelOne
  have hrun : mcLoop nbrsOne phenNat modelOne 1 0 false rngZero 2 [0] 0 0 =
      some (Except.error EvolverError.exceeded) := by
    norm_num [mcLoop, mcStep, trans_prob, fixations, self_prob,
      cumulative_dist, selectMove, nanToNum, nbrsOne, phenNat, modelOne, rngZero,
      List.findIdx?]
  exact ⟨hthm.1 1 1000 idxZero rngZero 3 [0, 1] 1 0 5 rfl (by decide),
    hthm.2.1 1 0 false rngZero 3 [0, 1] 1 5 (by decide),
    hthm.2.2.1 1 1000 false rngZero 3 [0, 1] 1 1 rfl (by decide),
    hthm.2.2.2 1 0 false rngZero 2 [0] 0 0 hrun⟩

/-- Claim C3 (confirmed).  At each `monte_carlo` step: the i-th neighbor's
move probability is the nan-coerced model output for the (current, neighbor)
fitness pair divided by `#neighbors + 1`; a NaN output is coerced to 0; the
self probability is 1 minus the sum of the neighbor probabilities; and the
step outcome depends on the model only through its values on
(current, neighbor) fitness pairs — never through `(current, current)`. -/
theorem C3_step_probabilities {G : Type} [DecidableEq G]
    (nbrs : G → List G) (phen : G → ℚ) (model : ℚ → ℚ → Option ℚ)
    (current : G) :
    (∀ (i : ℕ) (n : G), (nbrs current)[i]? = some n →
      (trans_prob phen model current (nbrs current))[i]? =
        some (nanToNum (model (phen current) (phen n)) /
          ((nbrs current).length + 1))) ∧
    nanToNum none = 0 ∧
    self_prob phen model current (nbrs current) =
      1 - (trans_prob phen model current (nbrs current)).sum ∧
    (∀ (m2 : ℚ → ℚ → Option ℚ) (d : ℚ),
      (∀ n ∈ nbrs current, model (phen current) (phen n) =
        m2 (phen current) (phen n)) →
      mcStep nbrs phen model current d = mcStep nbrs phen m2 current d) := by
  refine ⟨?_, rfl, rfl, ?_⟩
  · intro i n hn
    simp [trans_prob, fixations, List.getElem?_map, hn]
  · intro m2 d hagree
    have hfix : fixations phen model current (nbrs current) =
        fixations phen m2 current (nbrs current) := by
      unfold fixations
      apply List.map_congr_left
      intro n hn
      rw [hagree n hn]
    have htp : trans_prob phen model current (nbrs current) =
        trans_prob phen m2 current (nbrs current) := by
      unfold trans_prob
      rw [hfix]
    have hsp : self_prob phen model current (nbrs current) =
        self_prob phen m2 current (nbrs current) := by
      unfold self_prob
      rw [htp]
    unfold mcStep
    rw [htp, hsp]

/-- Claim C3, witness: the probability formulas evaluated on a concrete
step, and two models that agree on the neighbor fitness pair but differ on
the (current, current) pair produce the identical step. -/
theorem C3_witness :
    (trans_prob phenNat modelOne 0 (nbrsOne 0))[0]? =
      some (nanToNum (modelOne (phenNat 0) (phenNat 1)) /
        ((nbrsOne 0).length + 1)) ∧
    nanToNum none = 0 ∧
    self_prob phenNat modelOne 0 (nbrsOne 0) =
      1 - (trans_prob phenNat modelOne 0 (nbrsOne 0)).sum ∧
    mcStep nbrsOne phenNat modelOne 0 0 = mcStep nbrsOne phenNat modelDiag 0 0 ∧
    modelOne (phenNat 0) (phenNat 0) ≠ modelDiag (phenNat 0) (phenNat 0) := by
  have hthm := C3_step_probabilities nbrsOne phenNat modelOne 0
  refine ⟨hthm.1 0 1 (by decide), hthm.2.1, hthm.2.2.1, ?_, by decide⟩
  exact hthm.2.2.2 modelDiag 0 (by decide)

/-- Claim C4 (confirmed).  Whenever a `monte_carlo` loop step finds the
self probability exactly 1, the walk stops at that step: with
`return_bad = true` the trajectory visited so far is returned, otherwise the
stuck `EvolverError` carrying the partial trajectory is raised. -/
theorem C4_stuck_stops {G : Type} [DecidableEq G]
    (nbrs : G → List G) (phen : G → ℚ) (model : ℚ → ℚ → Option ℚ)
    (target : G) (max_moves : ℤ) (return_bad : Bool) (rng : ℕ → ℚ)
    (fuel : ℕ) (visited : List G) (last : G) (nmoves : ℕ)
    (hne : last ≠ target) (hbudget : (nmoves : ℤ) ≤ max_moves)
    (hstuck : self_prob phen model last (nbrs last) = 1) :
    mcLoop nbrs phen model target max_moves return_bad rng
      (fuel + 1) visited last nmoves =
      some (if return_bad then Except.ok visited
            else Except.error (EvolverError.stuck visited)) := by
  have hstep : mcStep nbrs phen model last (rng nmoves) = McStep.stuck :=
    (mcStep_stuck_iff nbrs phen model last (rng nmoves)).mpr hstuck
  simp only [mcLoop]
  rw [if_pos (And.intro hne hbudget), hstep]

/-- Claim C4, witness: a concrete stuck step — the only neighbor has model
output 0, so the self probability is 1 — raises the stuck error carrying the
trajectory so far. -/
theorem C4_witness :
    (0 : ℕ) ≠ 1 ∧ ((0 : ℕ) : ℤ) ≤ 1000 ∧
    self_prob phenNat modelZero 0 (nbrsOne 0) = 1 ∧
    mcLoop nbrsOne phenNat modelZero 1 1000 false rngZero 1 [0] 0 0 =
      some (Except.error (EvolverError.stuck [0])) := by
  have hstuck : self_prob phenNat modelZero 0 (nbrsOne 0) = 1 := by
    norm_num [self_prob, trans_prob, fixations, nanToNum, nbrsOne, modelZero,
      phenNat]
  refine ⟨by decide, by decide, hstuck, ?_⟩
  have := C4_stuck_stops nbrsOne phenNat modelZero 1 1000 false rngZero
    0 [0] 0 0 (by decide) (by decide) hstuck
  simpa using this

/-- Claim C5 (confirmed).  A Metropolis step proposes the genotype at the
drawn index of `neighbors(current) ++ [current]` (every member of that
candidate set is reachable by some draw); acceptance compares a fresh
uniform draw `u` with the model output `p` via `u < p` (false for a NaN
output); an accepted step appends the proposal with the failure counter
unchanged, a rejected step appends the current genotype again and increments
the failure counter by exactly 1. -/
theorem C5_metropolis_step {G : Type} [DecidableEq G]
    (nbrs : G → List G) (phen : G → ℚ) (model : ℚ → ℚ → Option ℚ)
    (target : G) (max_fails : ℤ) (uChoice : ℕ → ℕ) (uRand : ℕ → ℚ)
    (fuel : ℕ) (visited : List G) (last : G) (fails k : ℕ) (g : G)
    (hne : last ≠ target) (hbudget : (fails : ℤ) ≤ max_fails)
    (hdraw : (nbrs last ++ [last])[uChoice k]? = some g) :
    (metLoop nbrs phen model target max_fails uChoice uRand
        (fuel + 1) visited last fails k =
      if metAccept (uRand k) (model (phen last) (phen g)) then
        metLoop nbrs phen model target max_fails uChoice uRand fuel
          (visited ++ [g]) g fails (k + 1)
      else
        metLoop nbrs phen model target max_fails uChoice uRand fuel
          (visited ++ [last]) last (fails + 1) (k + 1)) ∧
    (∀ (u q : ℚ), metAccept u (some q) = decide (u < q)) ∧
    (∀ u : ℚ, metAccept u none = false) ∧
    (∀ c ∈ nbrs last ++ [last], ∃ i : ℕ, (nbrs last ++ [last])[i]? = some c) := by
  refine ⟨?_, fun u q => rfl, fun u => rfl, fun c hc => List.getElem?_of_mem hc⟩
  simp only [metLoop, hdraw]
  rw [if_pos (And.intro hne hbudget)]

/-- Claim C5, witness: a concrete Metropolis step drawing the neighbor 1 of
current genotype 0. -/
theorem C5_witness :
    (metLoop nbrsOne phenNat modelOne 1 1000 idxZero rngZero 3 [0] 0 0 0 =
      if metAccept (rngZero 0) (modelOne (phenNat 0) (phenNat 1)) then
        metLoop nbrsOne phenNat modelOne 1 1000 idxZero rngZero 2 [0, 1] 1 0 1
      else
        metLoop nbrsOne phenNat modelOne 1 1000 idxZero rngZero 2 [0, 0] 0 1 1) ∧
    metAccept 0 (some 1) = decide ((0 : ℚ) < 1) ∧
    metAccept 0 none = false ∧
    (∃ i : ℕ, (nbrsOne 0 ++ [0])[i]? = some 0) := by
  have hthm := C5_metropolis_step nbrsOne phenNat modelOne 1 1000 idxZero
    rngZero 2 [0] 0 0 0 1 (by decide) (by decide) (by decide)
  exact ⟨hthm.1, hthm.2.1 0 1, hthm.2.2.1 0, hthm.2.2.2 0 (by decide)⟩

/-- Claim C6 (corrected).  Every rejected Metropolis step appends a
duplicate of the previous genotype and increments the failure counter, and
appending a duplicate raises the duplicate-position count by exactly 1; but
the failure counter at termination is only bounded above by — not equal
to — the number of duplicate positions, because an accepted self-proposal
also appends a duplicate without incrementing the counter. -/
theorem C6_rejects_and_fails {G : Type} [DecidableEq G]
    (nbrs : G → List G) (phen : G → ℚ) (model : ℚ → ℚ → Option ℚ) :
    (∀ (target : G) (max_fails : ℤ) (uChoice : ℕ → ℕ) (uRand : ℕ → ℚ)
        (fuel : ℕ) (visited : List G) (last : G) (fails k : ℕ) (g : G),
      last ≠ target → (fails : ℤ) ≤ max_fails →
      (nbrs last ++ [last])[uChoice k]? = some g →
      metAccept (uRand k) (model (phen last) (phen g)) = false →
      metLoop nbrs phen model target max_fails uChoice uRand
          (fuel + 1) visited last fails k =
        metLoop nbrs phen model target max_fails uChoice uRand fuel
          (visited ++ [last]) last (fails + 1) (k + 1)) ∧
    (∀ (v : List G) (last : G), v.getLast? = some last →
      dupCount (v ++ [last]) = dupCount v + 1) ∧
    (∀ (source target : G) (max_fails : ℤ) (uChoice : ℕ → ℕ) (uRand : ℕ → ℚ)
        (fuel : ℕ) (w : List G) (f2 : ℕ),
      metLoopExit nbrs phen model target max_fails uChoice uRand fuel
        [source] source 0 0 = some (w, f2) →
      f2 ≤ dupCount w) := by
  refine ⟨?_, ?_, ?_⟩
  · intro target max_fails uChoice uRand fuel visited last fails k g
      hne hbudget hdraw hrej
    simp only [metLoop, hdraw, hrej, Bool.false_eq_true, if_false]
    rw [if_pos (And.intro hne hbudget)]
  · intro v last h
    rw [dupCount_concat v last last h]
    simp
  · intro source target max_fails uChoice uRand fuel w f2 h
    have hb := metExit_dups nbrs phen model target max_fails uChoice uRand
      fuel [source] source 0 0 w f2 (by simp) h
    have hd : dupCount ([source] : List G) = 0 := rfl
    omega

/-- Claim C6, counterexample: an accepted self-proposal duplicates the
previous genotype without touching the failure counter — the run terminates
with counter 0 but one duplicate position, so the counter does not equal the
duplicate count. -/
theorem C6_counterexample :
    monte_carlo_metropolis_criterion nbrsOne phenNat modelOne 0 1 1000
      idxSelfFirst rngZero 5 = some (Except.ok [0, 0, 1]) ∧
    metLoopExit nbrsOne phenNat modelOne 1 1000 idxSelfFirst rngZero
      5 [0] 0 0 0 = some ([0, 0, 1], 0) ∧
    dupCount ([0, 0, 1] : List ℕ) = 1 := by
  exact ⟨by decide, by decide, by decide⟩

/-- Claim C6, witness: a concrete rejected step duplicating the current
genotype, the duplicate-count increment, and the counter bound on a
terminated run. -/
theorem C6_witness :
    (metLoop nbrsOne phenNat modelZero 1 1000 idxZero rngZero 3 [0] 0 0 0 =
      metLoop nbrsOne phenNat modelZero 1 1000 idxZero rngZero 2 [0, 0] 0 1 1) ∧
    dupCount ([0, 0] : List ℕ) = dupCount [0] + 1 ∧
    (metLoopExit nbrsOne phenNat modelOne 1 1000 idxZero rngZero 3 [0] 0 0 0 =
      some ([0, 1], 0) ∧ (0 : ℕ) ≤ dupCount ([0, 1] : List ℕ)) := by
  have hthm := C6_rejects_and_fails nbrsOne phenNat modelZero
  have hthm2 := C6_rejects_and_fails nbrsOne phenNat modelOne
  have hrun : metLoopExit nbrsOne phenNat modelOne 1 1000 idxZero rngZero
      3 [0] 0 0 0 = some ([0, 1], 0) := by decide
  exact ⟨hthm.1 1 1000 idxZero rngZero 2 [0] 0 0 0 1
      (by decide) (by decide) (by decide) (by decide),
    hthm.2.1 [0] 0 (by decide),
    hrun,
    hthm2.2.2 0 1 1000 idxZero rngZero 3 [0, 1] 0 hrun⟩

/-- Claim C7 (corrected).  With a nonnegative budget, a walk whose source
equals its target returns the single-element trajectory without consulting
the neighbor enumerator, the model, or the random oracles, and a
`MarkovChain.simulate` start inside the mutant set returns the
single-element path; but with a negative `max_moves` / `max_fails` both
walkers raise the exceeded error even though source = target, so the claim
does not hold "regardless of max_moves / max_fails". -/
theorem C7_boundary {G : Type} [DecidableEq G] :
    (∀ (nbrs : G → List G) (phen : G → ℚ) (model : ℚ → ℚ → Option ℚ)
        (s : G) (max_moves : ℤ) (return_bad : Bool) (rng : ℕ → ℚ),
      0 ≤ max_moves →
      monte_carlo nbrs phen model s s max_moves return_bad rng =
        some (Except.ok [s])) ∧
    (∀ (nbrs : G → List G) (phen : G → ℚ) (model : ℚ → ℚ → Option ℚ)
        (s : G) (max_fails : ℤ) (uChoice : ℕ → ℕ) (uRand : ℕ → ℚ) (fuel : ℕ),
      0 ≤ max_fails →
      monte_carlo_metropolis_criterion nbrs phen model s s max_fails
        uChoice uRand fuel = some (Except.ok [s])) ∧
    (∀ (genotypes : List G) (tm : List (List ℚ)) (rvs : List ℚ → ℕ → ℕ)
        (mutant : List G) (w : G) (fuel : ℕ),
      w ∈ mutant →
      simulate genotypes tm rvs mutant w fuel = some [w]) := by
  refine ⟨?_, ?_, ?_⟩
  · intro nbrs phen model s max_moves return_bad rng h
    unfold monte_carlo
    simp only [mcLoop]
    rw [if_neg (by simp : ¬(s ≠ s ∧ ((0 : ℕ) : ℤ) ≤ max_moves)),
      if_neg (by omega : ¬ max_moves < ((0 : ℕ) : ℤ))]
  · intro nbrs phen model s max_fails uChoice uRand fuel h
    cases fuel with
    | zero =>
      simp only [monte_carlo_metropolis_criterion, metLoop]
      rw [if_neg (by simp : ¬(s ≠ s ∧ ((0 : ℕ) : ℤ) ≤ max_fails)),
        if_neg (by omega : ¬ max_fails < ((0 : ℕ) : ℤ))]
    | succ fuel =>
      simp only [monte_carlo_metropolis_criterion, metLoop]
      rw [if_neg (by simp : ¬(s ≠ s ∧ ((0 : ℕ) : ℤ) ≤ max_fails)),
        if_neg (by omega : ¬ max_fails < ((0 : ℕ) : ℤ))]
  · intro genotypes tm rvs mutant w fuel hmem
    cases fuel with
    | zero => simp [simulate, simulateLoop, hmem]
    | succ fuel => simp [simulate, simulateLoop, hmem]

/-- Claim C7, counterexample: with `max_moves = -1` (resp. `max_fails = -1`)
and source = target = 0, both walkers raise the exceeded `EvolverError`
instead of returning `[0]`. -/
theorem C7_counterexample :
    monte_carlo nbrsOne phenNat modelOne 0 0 (-1) false rngZero =
      some (Except.error EvolverError.exceeded) ∧
    monte_carlo_metropolis_criterion nbrsOne phenNat modelOne 0 0 (-1)
      idxZero rngZero 5 = some (Except.error EvolverError.exceeded) := by
  exact ⟨by decide, by decide⟩

/-- Claim C7, witness: source = target with nonnegative budgets, and a
simulate start already in the mutant set. -/
theorem C7_witness :
    monte_carlo nbrsOne phenNat modelOne 3 3 1000 false rngZero =
      some (Except.ok [3]) ∧
    monte_carlo_metropolis_criterion nbrsOne phenNat modelOne 3 3 1000
      idxZero rngZero 7 = some (Except.ok [3]) ∧
    simulate [0, 1] [[0, 1], [0, 1]] rvsOne [1] 1 4 = some [1] := by
  have hthm := @C7_boundary ℕ _
  exact ⟨hthm.1 nbrsOne phenNat modelOne 3 1000 false rngZero (by decide),
    hthm.2.1 nbrsOne phenNat modelOne 3 1000 idxZero rngZero 7 (by decide),
    hthm.2.2 [0, 1] [[0, 1], [0, 1]] rvsOne [1] 1 4 (by decide)⟩

/-- Claim C8 (confirmed).  If the neighbor enumerator only returns genotypes
related to its argument by `R` (read: differing at exactly one mutable
site), then every trajectory `monte_carlo` returns is a chain in which each
consecutive pair is either equal or `R`-related — each appended genotype is
the current genotype or one of its enumerated neighbors. -/
theorem C8_adjacency {G : Type} [DecidableEq G]
    (nbrs : G → List G) (phen : G → ℚ) (model : ℚ → ℚ → Option ℚ)
    (source target : G) (max_moves : ℤ) (return_bad : Bool) (rng : ℕ → ℚ)
    (R : G → G → Prop) (hR : ∀ g n, n ∈ nbrs g → R g n) (v : List G)
    (hrun : monte_carlo nbrs phen model source target max_moves return_bad rng =
      some (Except.ok v)) :
    List.Chain' (fun a b => a = b ∨ R a b) v :=
  mcLoop_chain nbrs phen model target max_moves return_bad rng R hR
    _ [source] source 0 (Except.ok v) (by simp) (List.chain'_singleton _)
    hrun v (Or.inl rfl)

/-- Claim C8, witness: a concrete run over the successor graph whose
returned trajectory is a chain of successor steps. -/
theorem C8_witness :
    monte_carlo nbrsUp phenNat modelOne 0 1 10 false rngZero =
      some (Except.ok [0, 1]) ∧
    List.Chain' (fun a b : ℕ => a = b ∨ b = a + 1) [0, 1] := by
  have hrun : monte_carlo nbrsUp phenNat modelOne 0 1 10 false rngZero =
      some (Except.ok [0, 1]) := by
    norm_num [monte_carlo, mcLoop, mcStep, trans_prob, fixations, self_prob,
      cumulative_dist, selectMove, nanToNum, nbrsUp, phenNat, modelOne, rngZero,
      List.findIdx?]
  refine ⟨hrun, ?_⟩
  exact C8_adjacency nbrsUp phenNat modelOne 0 1 10 false rngZero
    (fun a b => b = a + 1) (by intro g n h; simpa [nbrsUp] using h) [0, 1] hrun

/-- Claim C9 (corrected).  Every failure of both walkers is a typed
`EvolverError`, and the stuck failure does carry the partial trajectory
accumulated so far (its head is the source); but the max-moves and max-fails
failures carry only the fixed message and no trajectory, so the claim that
all three failures alike carry the partial trajectory is false. -/
theorem C9_typed_errors {G : Type} [DecidableEq G]
    (nbrs : G → List G) (phen : G → ℚ) (model : ℚ → ℚ → Option ℚ) :
    (∀ (source target : G) (max_moves : ℤ) (return_bad : Bool) (rng : ℕ → ℚ)
        (e : EvolverError G),
      monte_carlo nbrs phen model source target max_moves return_bad rng =
        some (Except.error e) →
      (∃ p, e = EvolverError.stuck p ∧ return_bad = false ∧
        p.head? = some source) ∨ e = EvolverError.exceeded) ∧
    (∀ (source target : G) (max_fails : ℤ) (uChoice : ℕ → ℕ) (uRand : ℕ → ℚ)
        (fuel : ℕ) (e : EvolverError G),
      monte_carlo_metropolis_criterion nbrs phen model source target max_fails
        uChoice uRand fuel = some (Except.error e) →
      e = EvolverError.exceeded) := by
  constructor
  · intro source target max_moves return_bad rng e h
    exact mcLoop_error_cases nbrs phen model target max_moves return_bad rng
      source _ [source] source 0 e (by simp) h
  · intro source target max_fails uChoice uRand fuel e h
    exact metLoop_error_exceeded nbrs phen model target max_fails uChoice uRand
      fuel [source] source 0 0 e h

/-- Claim C9, counterexample: two max-moves failures whose partial
trajectories differ (`[0, 1]` vs `[5, 6]`, as the instrumented loop shows)
raise the very same error value — the budget-exceeded error cannot be
carrying the partial trajectory. -/
theorem C9_counterexample :
    monte_carlo nbrsUp phenNat modelOne 0 100 0 false rngZero =
      some (Except.error EvolverError.exceeded) ∧
    monte_carlo nbrsUp phenNat modelOne 5 100 0 false rngZero =
      some (Except.error EvolverError.exceeded) ∧
    mcLoopExit nbrsUp phenNat modelOne 100 0 rngZero 2 [0] 0 0 =
      some (McExit.finished [0, 1] 1) ∧
    mcLoopExit nbrsUp phenNat modelOne 100 0 rngZero 2 [5] 5 0 =
      some (McExit.finished [5, 6] 1) ∧
    ([0, 1] : List ℕ) ≠ [5, 6] := by
  refine ⟨?_, ?_, ?_, ?_, by decide⟩ <;>
    norm_num [monte_carlo, mcLoop, mcLoopExit, mcStep, trans_prob, fixations,
      self_prob, cumulative_dist, selectMove, nanToNum, nbrsUp, phenNat,
      modelOne, rngZero, List.findIdx?]

/-- Claim C9, witness: a stuck failure carrying its partial trajectory and a
max-fails failure carrying nothing. -/
theorem C9_witness :
    monte_carlo nbrsOne phenNat modelZero 0 1 1000 false rngZero =
      some (Except.error (EvolverError.stuck [0])) ∧
    ([0] : List ℕ).head? = some 0 ∧
    monte_carlo_metropolis_criterion nbrsOne phenNat modelZero 0 1 0 idxZero
      rngZero 5 = some (Except.error EvolverError.exceeded) ∧
    (EvolverError.exceeded : EvolverError ℕ) = EvolverError.exceeded := by
  have h1 : monte_carlo nbrsOne phenNat modelZero 0 1 1000 false rngZero =
      some (Except.error (EvolverError.stuck [0])) := by
    norm_num [monte_carlo, mcLoop, mcStep, trans_prob, fixations, self_prob,
      cumulative_dist, selectMove, nanToNum, nbrsOne, phenNat, modelZero, rngZero,
      List.findIdx?]
  have h2 : monte_carlo_metropolis_criterion nbrsOne phenNat modelZero 0 1 0
      idxZero rngZero 5 = some (Except.error EvolverError.exceeded) := by decide
  have hthm := C9_typed_errors nbrsOne phenNat modelZero
  have c2 := hthm.2 0 1 0 idxZero rngZero 5 EvolverError.exceeded h2
  rcases hthm.1 0 1 1000 false rngZero (EvolverError.stuck [0]) h1 with
    ⟨p, hp, -, hhead⟩ | hex
  · injection hp with hlist
    exact ⟨h1, by rw [hlist]; exact hhead, h2, c2⟩
  · exact absurd hex (by simp)

/-- Claim C10 (confirmed).  The `return_bad = true` escape hatch applies
only to the stuck case: with `return_bad = true`, a loop state whose move
counter exceeds `max_moves` without having reached the target still raises
the exceeded error, and every error a `return_bad = true` run raises is the
exceeded error (never a returned partial trajectory). -/
theorem C10_return_bad_scope {G : Type} [DecidableEq G]
    (nbrs : G → List G) (phen : G → ℚ) (model : ℚ → ℚ → Option ℚ) :
    (∀ (target : G) (max_moves : ℤ) (rng : ℕ → ℚ) (fuel : ℕ) (v : List G)
        (last : G) (n : ℕ),
      last ≠ target → max_moves < (n : ℤ) →
      mcLoop nbrs phen model target max_moves true rng fuel v last n =
        some (Except.error EvolverError.exceeded)) ∧
    (∀ (source target : G) (max_moves : ℤ) (rng : ℕ → ℚ) (e : EvolverError G),
      monte_carlo nbrs phen model source target max_moves true rng =
        some (Except.error e) →
      e = EvolverError.exceeded) := by
  constructor
  · intro target max_moves rng fuel v last n hne hm
    have hg : ¬(last ≠ target ∧ (n : ℤ) ≤ max_moves) := by
      rintro ⟨-, h2⟩
      omega
    cases fuel with
    | zero => simp [mcLoop, hg, hm]
    | succ fuel => simp [mcLoop, hg, hm]
  · intro source target max_moves rng e h
    rcases mcLoop_error_cases nbrs phen model target max_moves true rng source
        _ [source] source 0 e (by simp) h with ⟨p, -, hrb, -⟩ | hex
    · exact absurd hrb (by simp)
    · exact hex

/-- Claim C10, witness: a budget-exceeded loop state under
`return_bad = true` still raises, and a full `return_bad = true` run that
exceeds its budget raises the exceeded error. -/
theorem C10_witness :
    mcLoop nbrsUp phenNat modelOne 100 0 true rngZero 3 [0, 1] 1 5 =
      some (Except.error EvolverError.exceeded) ∧
    monte_carlo nbrsUp phenNat modelOne 0 100 0 true rngZero =
      some (Except.error EvolverError.exceeded) ∧
    (EvolverError.exceeded : EvolverError ℕ) = EvolverError.exceeded := by
  have hthm := C10_return_bad_scope nbrsUp phenNat modelOne
  have h2 : monte_carlo nbrsUp phenNat modelOne 0 100 0 true rngZero =
      some (Except.error EvolverError.exceeded) := by
    norm_num [monte_carlo, mcLoop, mcStep, trans_prob, fixations, self_prob,
      cumulative_dist, selectMove, nanToNum, nbrsUp, phenNat, modelOne, rngZero,
      List.findIdx?]
  exact ⟨hthm.1 100 0 rngZero 3 [0, 1] 1 5 (by decide) (by decide), h2,
    hthm.2 0 100 0 rngZero EvolverError.exceeded h2⟩

end Claims
